import Mathlib

/-!
# A peace place: scene bootstrap, render loop and click-to-zoom sequence

A shallow embedding of `src/main.js`.

* Numbers are elements of an arbitrary field `K` (exact arithmetic); the
  definitions are computable and can be run over `ℚ`, and the statements about
  the sine are read over `ℝ`.
* The rendering library and the browser are not part of the repository. What
  the program uses of them is modelled explicitly and marked as such:
  `Vec3.add`, `Vec3.lerpVectors`, `Node.traverse`, the frame scheduler
  (`State.pending`, `frame`), or taken as a parameter (`sin`,
  `getWorldPosition`, `boxCenter`).
* Effects on the outside world are recorded in the state: the number of draw
  calls, the number of sound replays, the list of addresses assigned to
  `window.location.href`, and the callbacks registered with
  `requestAnimationFrame` for the next frame.
-/

namespace PeacePlace

/-! ## Data model -/

/-- A three-component vector (`THREE.Vector3`). -/
structure Vec3 (K : Type) where
  x : K
  y : K
  z : K
deriving DecidableEq

/-- Modelled from the spec: `Vector3.add` of the rendering library (not under
`src/`), the componentwise sum. -/
def Vec3.add {K : Type} [Field K] (a b : Vec3 K) : Vec3 K :=
  ⟨a.x + b.x, a.y + b.y, a.z + b.z⟩

/-- Modelled from the spec: `Vector3.lerpVectors` of the rendering library (not
under `src/`), the linear interpolation between `v1` and `v2` at fraction
`alpha`, `v1 + (v2 - v1) * alpha` componentwise. -/
def Vec3.lerpVectors {K : Type} [Field K] (v1 v2 : Vec3 K) (alpha : K) : Vec3 K :=
  ⟨v1.x + (v2.x - v1.x) * alpha, v1.y + (v2.y - v1.y) * alpha, v1.z + (v2.z - v1.z) * alpha⟩

/-- The fields of a scene-graph object (`THREE.Object3D`) that `main.js` reads
or writes, plus the library's per-object `id`, which tells two objects with
the same fields apart. -/
structure Object3D where
  id : Nat
  name : String
  isMesh : Bool
  castShadow : Bool
  receiveShadow : Bool
deriving DecidableEq

/-- A scene subgraph: an object and its children, in order. -/
inductive Node where
  | mk (obj : Object3D) (children : List Node)

mutual
/-- Modelled from the spec: `Object3D.traverse` of the rendering library (not
under `src/`): the callback runs on the object itself, then the traversal
descends into each child in order. The callback may update the object it is
given and a state `σ` (the variables it closes over). -/
def Node.traverse {σ : Type} (callback : Object3D → σ → Object3D × σ) : Node → σ → Node × σ
  | .mk obj children, st =>
    let r := callback obj st
    let rs := Node.traverseChildren callback children r.2
    (.mk r.1 rs.1, rs.2)
/-- The loop of `Object3D.traverse` over the children. -/
def Node.traverseChildren {σ : Type} (callback : Object3D → σ → Object3D × σ) :
    List Node → σ → List Node × σ
  | [], st => ([], st)
  | c :: cs, st =>
    let r := Node.traverse callback c st
    let rs := Node.traverseChildren callback cs r.2
    (r.1 :: rs.1, rs.2)
end

mutual
/-- The objects of a subgraph in traversal order. -/
def Node.objects : Node → List Object3D
  | .mk obj children => obj :: Node.objectsOfChildren children
/-- The objects of a list of subgraphs in traversal order. -/
def Node.objectsOfChildren : List Node → List Object3D
  | [] => []
  | c :: cs => Node.objects c ++ Node.objectsOfChildren cs
end

/-- The callback of `model.traverse` (main.js lines 65-75); the state it
closes over is the top-level variable `screenMesh`. -/
def traverseCallback (node : Object3D) (screenMesh : Option Object3D) :
    Object3D × Option Object3D :=
  if node.isMesh then
    let node1 := { node with castShadow := true }
    let node2 := { node1 with receiveShadow := false }
    if node2.name = "screen" then (node2, some node2) else (node2, screenMesh)
  else (node, screenMesh)

/-- The test of the traversal callback for the screen mesh: a mesh whose name
is exactly "screen". -/
def isScreenMesh (o : Object3D) : Bool :=
  o.isMesh && decide (o.name = "screen")

/-- The environment captured by one `zoomIn` closure (main.js lines 131-137):
the constants computed by the click handler and the counter `zoomProgress`. -/
structure Zoom (K : Type) where
  targetPosition : Vec3 K
  targetLookAt : Vec3 K
  initialPosition : Vec3 K
  zoomProgress : Nat
deriving DecidableEq

/-- A function registered with `requestAnimationFrame`: the render loop, or a
`zoomIn` closure together with its environment. -/
inductive Callback (K : Type) where
  | animate
  | zoomIn (env : Zoom K)
deriving DecidableEq

/-- The program state: the top-level variables of `main.js`, the camera, and
the record of the effects issued so far. `cameraLookAt` is the point last
passed to `camera.lookAt`; `renders` counts `renderer.render` calls;
`soundReplays` counts restarts of the click sound; `href` lists the addresses
assigned to `window.location.href`; `pending` lists the callbacks registered
with `requestAnimationFrame` for the next frame, in registration order. -/
structure State (K : Type) where
  cameraPosition : Vec3 K
  cameraLookAt : Option (Vec3 K)
  model : Option Node
  screenMesh : Option Object3D
  cameraTarget : Vec3 K
  time : K
  renders : Nat
  soundReplays : Nat
  href : List String
  pending : List (Callback K)

section Program

variable {K : Type} [Field K]

/-! ## Model loader -/

/-- The success callback of `loader.load` (main.js lines 60-84). The position
and scale given to the model only enter through the world-space quantities,
which are parameters here: `boxCenter` is the centre of the bounding box of
the subgraph. Attaching the model to the scene graph has no effect on the
state modelled here. -/
def onLoad (boxCenter : Node → Vec3 K) (gltfScene : Node) (s : State K) : State K :=
  let r := Node.traverse traverseCallback gltfScene s.screenMesh
  { s with model := some r.1, screenMesh := r.2, cameraTarget := boxCenter r.1 }

/-! ## Render loop -/

/-- The function `animate` (main.js lines 100-118); `sin` is `Math.sin`. -/
def animate (sin : K → K) (s : State K) : State K :=
  let s0 := { s with pending := s.pending ++ [Callback.animate] }
  let s4 :=
    if s0.model.isSome then
      let s1 := { s0 with time := s0.time + 0.01 }
      let verticalRadius : K := 0.2
      let horizontalRadius : K := 0.5
      let s2 := { s1 with cameraPosition :=
        { s1.cameraPosition with x := s1.cameraTarget.x + sin s1.time * horizontalRadius } }
      let s3 := { s2 with cameraPosition :=
        { s2.cameraPosition with
          y := s2.cameraTarget.y + 0.5 + sin (s2.time * 0.5) * verticalRadius } }
      let s4 := { s3 with cameraPosition :=
        { s3.cameraPosition with z := s3.cameraTarget.z + 3 } }
      { s4 with cameraLookAt := some s4.cameraTarget }
    else s0
  { s4 with renders := s4.renders + 1 }

/-! ## Zoom sequence -/

/-- The constant `zoomDuration` (main.js line 137). -/
def zoomDuration : Nat := 120

/-- The function `zoomIn` (main.js lines 139-153), run with closure environment
`z` in state `s`; returns the environment and the state after the call. -/
def zoomIn (z : Zoom K) (s : State K) : Zoom K × State K :=
  if z.zoomProgress < zoomDuration then
    let z1 := { z with zoomProgress := z.zoomProgress + 1 }
    let alpha : K := (z1.zoomProgress : K) / (zoomDuration : K)
    let s1 := { s with
      cameraPosition := Vec3.lerpVectors z1.initialPosition z1.targetPosition alpha }
    let s2 := { s1 with cameraLookAt := some z1.targetLookAt }
    let s3 := { s2 with renders := s2.renders + 1 }
    (z1, { s3 with pending := s3.pending ++ [Callback.zoomIn z1] })
  else
    (z, { s with href := s.href ++ ["site.html"] })

/-- The click handler up to the first call of `zoomIn` (main.js lines
125-137): `none` when the guard returns, otherwise the fresh closure
environment and the state in which `zoomIn` is first called.
`getWorldPosition` gives the world-space position of an object. -/
def clickClosure (getWorldPosition : Object3D → Vec3 K) (s : State K) :
    Option (Zoom K × State K) :=
  match s.model, s.screenMesh with
  | some _, some screenMesh =>
    let s1 := { s with soundReplays := s.soundReplays + 1 }
    let screenWorldPosition := getWorldPosition screenMesh
    let targetPosition := screenWorldPosition.add ⟨0, 0, 2.5⟩
    let targetLookAt := screenWorldPosition
    let initialPosition := s1.cameraPosition
    some (⟨targetPosition, targetLookAt, initialPosition, 0⟩, s1)
  | _, _ => none

/-- The click handler (main.js lines 124-156). -/
def click (getWorldPosition : Object3D → Vec3 K) (s : State K) : State K :=
  match clickClosure getWorldPosition s with
  | some (z, s1) => (zoomIn z s1).2
  | none => s

/-! ## Frames -/

/-- Runs one registered callback. -/
def runCallback (sin : K → K) : Callback K → State K → State K
  | .animate, s => animate sin s
  | .zoomIn z, s => (zoomIn z s).2

/-- Modelled from the spec: the browser's animation-frame scheduler (not under
`src/`): one frame runs the callbacks registered since the previous frame, in
registration order; what they register runs in the next frame. -/
def frame (sin : K → K) (s : State K) : State K :=
  s.pending.foldl (fun st cb => runCallback sin cb st) { s with pending := [] }

/-- The state before the first call of `animate` (main.js lines 10-11, 54-56,
99): the camera at (0, 1, 5), no model, no screen mesh, time 0. -/
def initialState : State K :=
  { cameraPosition := ⟨0, 1, 5⟩
    cameraLookAt := none
    model := none
    screenMesh := none
    cameraTarget := ⟨0, 0, 0⟩
    time := 0
    renders := 0
    soundReplays := 0
    href := []
    pending := [] }

/-- The state after the top-level call `animate()` (main.js line 119). -/
def startState (sin : K → K) : State K :=
  animate sin initialState

end Program

/-! ## Concrete scenes -/

/-- A subgraph with one mesh named "screen" below a group. -/
def demoScene : Node :=
  .mk ⟨0, "Scene", false, false, false⟩
    [.mk ⟨1, "desk", true, false, true⟩ [],
      .mk ⟨2, "computer", false, false, false⟩ [.mk ⟨3, "screen", true, false, true⟩ []]]

/-- World positions for the concrete scene: every object sits at (0, 1, -2). -/
def demoWorldPosition : Object3D → Vec3 ℚ :=
  fun _ => ⟨0, 1, -2⟩

/-- The state after start-up and the load of the concrete scene, with the
bounding-box centre at the origin. -/
def demoState : State ℚ :=
  onLoad (fun _ => ⟨0, 0, 0⟩) demoScene (startState id)

/-- The closure environment a click creates in `demoState`. -/
def demoZoom : Zoom ℚ :=
  ⟨(demoWorldPosition ⟨3, "screen", true, true, false⟩).add ⟨0, 0, 2.5⟩,
    demoWorldPosition ⟨3, "screen", true, true, false⟩, demoState.cameraPosition, 0⟩

/-- The state in which that closure is first called. -/
def demoClicked : State ℚ :=
  { demoState with soundReplays := demoState.soundReplays + 1 }

/-- A subgraph with two meshes named "screen". -/
def twoScreens : Node :=
  .mk ⟨0, "root", false, false, true⟩
    [.mk ⟨1, "screen", true, false, true⟩ [], .mk ⟨2, "screen", true, false, true⟩ []]

/-! ## Facts about the traversal -/

/-- What the traversal callback does to the object it is given. -/
theorem traverseCallback_fst (o : Object3D) (st : Option Object3D) :
    (traverseCallback o st).1 =
      if o.isMesh then { o with castShadow := true, receiveShadow := false } else o := by
  unfold traverseCallback
  by_cases hm : o.isMesh = true <;> by_cases hn : o.name = "screen" <;> simp [hm, hn]

/-- What the traversal callback does to the variable `screenMesh`. -/
theorem traverseCallback_snd (o : Object3D) (st : Option Object3D) :
    (traverseCallback o st).2 =
      if isScreenMesh o then some (traverseCallback o st).1 else st := by
  unfold traverseCallback isScreenMesh
  by_cases hm : o.isMesh = true <;> by_cases hn : o.name = "screen" <;> simp [hm, hn]

mutual
/-- The traversal runs the callback once on every object, in traversal order:
the objects of the result are the callback's results. -/
theorem objects_traverse (n : Node) (st : Option Object3D) :
    (Node.traverse traverseCallback n st).1.objects =
      n.objects.map (fun o => (traverseCallback o none).1) := by
  cases n with
  | mk obj children =>
    simp only [Node.traverse, Node.objects, List.map_cons]
    rw [objectsOfChildren_traverse children, traverseCallback_fst, traverseCallback_fst]
/-- The same for a list of subgraphs. -/
theorem objectsOfChildren_traverse (cs : List Node) (st : Option Object3D) :
    Node.objectsOfChildren (Node.traverseChildren traverseCallback cs st).1 =
      (Node.objectsOfChildren cs).map (fun o => (traverseCallback o none).1) := by
  cases cs with
  | nil => simp [Node.traverseChildren, Node.objectsOfChildren]
  | cons c cs =>
    simp only [Node.traverseChildren, Node.objectsOfChildren, List.map_append]
    rw [objects_traverse c, objectsOfChildren_traverse cs]
end

mutual
/-- The variable `screenMesh` after the traversal is the fold of the callback
over the objects in traversal order. -/
theorem screenMesh_traverse (n : Node) (st : Option Object3D) :
    (Node.traverse traverseCallback n st).2 =
      n.objects.foldl (fun acc o => (traverseCallback o acc).2) st := by
  cases n with
  | mk obj children =>
    simp only [Node.traverse, Node.objects, List.foldl_cons]
    rw [screenMesh_traverseChildren children]
/-- The same for a list of subgraphs. -/
theorem screenMesh_traverseChildren (cs : List Node) (st : Option Object3D) :
    (Node.traverseChildren traverseCallback cs st).2 =
      (Node.objectsOfChildren cs).foldl (fun acc o => (traverseCallback o acc).2) st := by
  cases cs with
  | nil => simp [Node.traverseChildren, Node.objectsOfChildren]
  | cons c cs =>
    simp only [Node.traverseChildren, Node.objectsOfChildren, List.foldl_append]
    rw [screenMesh_traverse c, screenMesh_traverseChildren cs]
end

/-- Folding the callback over a list of objects records the last mesh named
"screen", as the callback leaves it, and keeps the old value when there is
none. -/
theorem foldl_traverseCallback (l : List Object3D) (st : Option Object3D) :
    l.foldl (fun acc o => (traverseCallback o acc).2) st =
      match ((l.map (fun o => (traverseCallback o none).1)).filter isScreenMesh).getLast? with
      | some o => some o
      | none => st := by
  induction l using List.reverseRecOn with
  | nil => simp
  | append_singleton l a ih =>
    rw [List.foldl_append, List.foldl_cons, List.foldl_nil, traverseCallback_snd, ih]
    have hscr : isScreenMesh (traverseCallback a none).1 = isScreenMesh a := by
      rw [traverseCallback_fst]
      by_cases hm : a.isMesh = true <;> simp [isScreenMesh, hm]
    have hfst : ∀ t, (traverseCallback a t).1 = (traverseCallback a none).1 := by
      intro t
      rw [traverseCallback_fst, traverseCallback_fst]
    by_cases ha : isScreenMesh a = true
    · simp [List.filter_append, List.filter_cons, hscr, ha, hfst]
    · simp [List.filter_append, List.filter_cons, hscr, ha]

/-- The callback does not change whether an object is a mesh named "screen". -/
theorem isScreenMesh_traverseCallback (o : Object3D) (st : Option Object3D) :
    isScreenMesh (traverseCallback o st).1 = isScreenMesh o := by
  rw [traverseCallback_fst]
  by_cases hm : o.isMesh = true <;> simp [isScreenMesh, hm]

/-- The model and the screen mesh after the load callback. -/
theorem onLoad_model_screenMesh {K : Type} [Field K] (boxCenter : Node → Vec3 K)
    (gltfScene : Node) (s : State K) (h : s.screenMesh = none) :
    ∃ tree, (onLoad boxCenter gltfScene s).model = some tree ∧
      tree.objects = gltfScene.objects.map (fun o => (traverseCallback o none).1) ∧
      (onLoad boxCenter gltfScene s).screenMesh =
        (tree.objects.filter isScreenMesh).getLast? := by
  refine ⟨(Node.traverse traverseCallback gltfScene s.screenMesh).1, rfl,
    objects_traverse gltfScene s.screenMesh, ?_⟩
  show (Node.traverse traverseCallback gltfScene s.screenMesh).2 = _
  rw [screenMesh_traverse, foldl_traverseCallback, objects_traverse, h]
  cases (List.filter isScreenMesh
    (List.map (fun o => (traverseCallback o none).1) gltfScene.objects)).getLast? <;> rfl

/-! ## Model loader: claims -/

/-- C5. For every loaded subgraph, whatever its shape and depth, the model
stored by the load callback has the same objects in the same order (same id,
name and mesh flag), and every one of them that is a mesh has
`castShadow = true` and `receiveShadow = false`. -/
theorem onLoad_marks_every_mesh {K : Type} [Field K] (boxCenter : Node → Vec3 K)
    (gltfScene : Node) (s : State K) :
    ∃ tree, (onLoad boxCenter gltfScene s).model = some tree ∧
      tree.objects.map (fun o => (o.id, o.name, o.isMesh)) =
        gltfScene.objects.map (fun o => (o.id, o.name, o.isMesh)) ∧
      ∀ o ∈ tree.objects, o.isMesh = true → o.castShadow = true ∧ o.receiveShadow = false := by
  refine ⟨(Node.traverse traverseCallback gltfScene s.screenMesh).1, rfl, ?_, ?_⟩
  · rw [objects_traverse, List.map_map]
    apply List.map_congr_left
    intro o _
    simp only [Function.comp, traverseCallback_fst]
    by_cases hm : o.isMesh = true <;> simp [hm]
  · intro o ho hmesh
    rw [objects_traverse, List.mem_map] at ho
    obtain ⟨a, _, rfl⟩ := ho
    rw [traverseCallback_fst] at hmesh ⊢
    by_cases hm : a.isMesh = true
    · simp [hm]
    · simp [hm] at hmesh

/-- C6, as stated, fails: with two meshes named "screen" (ids 1 and 2, in
traversal order) the load callback records the one with id 2, while the first
mesh named "screen" in traversal order is the one with id 1. -/
theorem onLoad_screenMesh_not_first :
    (onLoad (fun _ => (⟨0, 0, 0⟩ : Vec3 ℚ)) twoScreens initialState).screenMesh =
        some ⟨2, "screen", true, true, false⟩ ∧
      (Node.traverse traverseCallback twoScreens none).1.objects.find? isScreenMesh =
        some ⟨1, "screen", true, true, false⟩ ∧
      (onLoad (fun _ => (⟨0, 0, 0⟩ : Vec3 ℚ)) twoScreens initialState).screenMesh ≠
        (Node.traverse traverseCallback twoScreens none).1.objects.find? isScreenMesh := by
  refine ⟨by decide, by decide, by decide⟩

/-- C6, amended. When `screenMesh` is unset before the load callback, the
callback records the last object in traversal order that is a mesh named
exactly "screen" (which is also the first when at most one object qualifies);
`screenMesh` stays unset if and only if no mesh has that name, and whatever
is recorded is a mesh named "screen". -/
theorem onLoad_records_last_screen_mesh {K : Type} [Field K] (boxCenter : Node → Vec3 K)
    (gltfScene : Node) (s : State K) (h : s.screenMesh = none) :
    ∃ tree, (onLoad boxCenter gltfScene s).model = some tree ∧
      (onLoad boxCenter gltfScene s).screenMesh =
        (tree.objects.filter isScreenMesh).getLast? ∧
      ((tree.objects.filter isScreenMesh).length ≤ 1 →
        (onLoad boxCenter gltfScene s).screenMesh = tree.objects.find? isScreenMesh) ∧
      ((onLoad boxCenter gltfScene s).screenMesh = none ↔
        ∀ o ∈ gltfScene.objects, ¬ (o.isMesh = true ∧ o.name = "screen")) ∧
      ∀ o, (onLoad boxCenter gltfScene s).screenMesh = some o →
        o.isMesh = true ∧ o.name = "screen" := by
  obtain ⟨tree, hmodel, hobjs, hscreen⟩ := onLoad_model_screenMesh boxCenter gltfScene s h
  refine ⟨tree, hmodel, hscreen, ?_, ?_, ?_⟩
  · intro hlen
    rw [hscreen, ← List.filter_head?]
    generalize tree.objects.filter isScreenMesh = l at hlen
    match l, hlen with
    | [], _ => rfl
    | [a], _ => rfl
    | _ :: _ :: _, hl => simp at hl
  · rw [hscreen, List.getLast?_eq_none_iff, List.filter_eq_nil_iff, hobjs]
    constructor
    · intro hall o ho hq
      have := hall _ (List.mem_map_of_mem _ ho)
      rw [isScreenMesh_traverseCallback] at this
      simp [isScreenMesh, hq.1, hq.2] at this
    · intro hall o ho
      rw [List.mem_map] at ho
      obtain ⟨a, ha, rfl⟩ := ho
      rw [isScreenMesh_traverseCallback]
      have := hall a ha
      simpa [isScreenMesh] using this
  · intro o ho
    rw [hscreen] at ho
    have hmem : o ∈ tree.objects.filter isScreenMesh := List.mem_of_getLast?_eq_some ho
    have hq := (List.mem_filter.mp hmem).2
    simpa [isScreenMesh] using hq

/-- C6, amended, at a concrete input: the two-screen subgraph loaded into the
initial state. -/
theorem onLoad_records_last_screen_mesh_witness :
    ∃ tree, (onLoad (fun _ => (⟨0, 0, 0⟩ : Vec3 ℚ)) twoScreens initialState).model = some tree ∧
      (onLoad (fun _ => (⟨0, 0, 0⟩ : Vec3 ℚ)) twoScreens initialState).screenMesh =
        (tree.objects.filter isScreenMesh).getLast? ∧
      ((tree.objects.filter isScreenMesh).length ≤ 1 →
        (onLoad (fun _ => (⟨0, 0, 0⟩ : Vec3 ℚ)) twoScreens initialState).screenMesh =
          tree.objects.find? isScreenMesh) ∧
      ((onLoad (fun _ => (⟨0, 0, 0⟩ : Vec3 ℚ)) twoScreens initialState).screenMesh = none ↔
        ∀ o ∈ twoScreens.objects, ¬ (o.isMesh = true ∧ o.name = "screen")) ∧
      ∀ o, (onLoad (fun _ => (⟨0, 0, 0⟩ : Vec3 ℚ)) twoScreens initialState).screenMesh = some o →
        o.isMesh = true ∧ o.name = "screen" :=
  onLoad_records_last_screen_mesh (fun _ => (⟨0, 0, 0⟩ : Vec3 ℚ)) twoScreens initialState rfl

/-! ## Facts about the render loop and the zoom sequence -/

section Facts

variable {K : Type} [Field K]

/-- A call of `animate` while the model is unset. -/
theorem animate_of_model_none (sin : K → K) (s : State K) (h : s.model = none) :
    animate sin s =
      { s with renders := s.renders + 1, pending := s.pending ++ [Callback.animate] } := by
  simp [animate, h]

/-- A call of `animate` once the model is set. -/
theorem animate_of_model_some (sin : K → K) (s : State K) (m : Node) (h : s.model = some m) :
    animate sin s =
      { s with
        time := s.time + 0.01
        cameraPosition :=
          ⟨s.cameraTarget.x + sin (s.time + 0.01) * 0.5,
            s.cameraTarget.y + 0.5 + sin ((s.time + 0.01) * 0.5) * 0.2,
            s.cameraTarget.z + 3⟩
        cameraLookAt := some s.cameraTarget
        renders := s.renders + 1
        pending := s.pending ++ [Callback.animate] } := by
  simp [animate, h]

/-- What `animate` registers for the next frame. -/
theorem animate_pending (sin : K → K) (s : State K) :
    (animate sin s).pending = s.pending ++ [Callback.animate] := by
  cases h : s.model with
  | none => rw [animate_of_model_none sin s h]
  | some m => rw [animate_of_model_some sin s m h]

/-- The render loop never navigates. -/
theorem animate_href (sin : K → K) (s : State K) : (animate sin s).href = s.href := by
  cases h : s.model with
  | none => rw [animate_of_model_none sin s h]
  | some m => rw [animate_of_model_some sin s m h]

/-- A call of `zoomIn` with the counter below `zoomDuration`. -/
theorem zoomIn_of_lt (z : Zoom K) (s : State K) (h : z.zoomProgress < zoomDuration) :
    zoomIn z s =
      ({ z with zoomProgress := z.zoomProgress + 1 },
        { s with
          cameraPosition := Vec3.lerpVectors z.initialPosition z.targetPosition
            (((z.zoomProgress + 1 : Nat) : K) / (zoomDuration : K))
          cameraLookAt := some z.targetLookAt
          renders := s.renders + 1
          pending := s.pending ++ [Callback.zoomIn { z with zoomProgress := z.zoomProgress + 1 }] }) := by
  simp [zoomIn, h]

/-- A call of `zoomIn` with the counter not below `zoomDuration`. -/
theorem zoomIn_of_not_lt (z : Zoom K) (s : State K) (h : ¬ z.zoomProgress < zoomDuration) :
    zoomIn z s = (z, { s with href := s.href ++ ["site.html"] }) := by
  simp [zoomIn, h]

/-- The closure environment after a call does not depend on the state. -/
theorem zoomIn_env (z : Zoom K) (s : State K) :
    (zoomIn z s).1 =
      if z.zoomProgress < zoomDuration then { z with zoomProgress := z.zoomProgress + 1 }
      else z := by
  by_cases h : z.zoomProgress < zoomDuration
  · rw [zoomIn_of_lt z s h, if_pos h]
  · rw [zoomIn_of_not_lt z s h, if_neg h]

/-- The environment after `n` successive calls of `zoomIn` from counter 0. -/
theorem iterate_zoomIn_env (z : Zoom K) (s : State K) (h : z.zoomProgress = 0) (n : Nat) :
    ((Function.uncurry zoomIn)^[n] (z, s)).1 = { z with zoomProgress := min n zoomDuration } := by
  induction n with
  | zero =>
    cases z
    simp only at h
    simp [h]
  | succ n ih =>
    rw [Function.iterate_succ_apply', Function.uncurry, zoomIn_env, ih]
    by_cases hn : n < zoomDuration
    · have h1 : min n zoomDuration = n := Nat.min_eq_left (Nat.le_of_lt hn)
      have h2 : min (n + 1) zoomDuration = n + 1 := Nat.min_eq_left hn
      simp [h1, h2, hn]
    · have hle : zoomDuration ≤ n := Nat.le_of_not_lt hn
      have h1 : min n zoomDuration = zoomDuration := Nat.min_eq_right hle
      have h2 : min (n + 1) zoomDuration = zoomDuration :=
        Nat.min_eq_right (Nat.le_succ_of_le hle)
      simp [h1, h2]

/-- What the click handler sets up when the guard passes. -/
theorem clickClosure_eq_some (getWorldPosition : Object3D → Vec3 K) (s : State K)
    (z : Zoom K) (s0 : State K) (h : clickClosure getWorldPosition s = some (z, s0)) :
    ∃ mdl mesh, s.model = some mdl ∧ s.screenMesh = some mesh ∧
      z = ⟨(getWorldPosition mesh).add ⟨0, 0, 2.5⟩, getWorldPosition mesh, s.cameraPosition, 0⟩ ∧
      s0 = { s with soundReplays := s.soundReplays + 1 } := by
  unfold clickClosure at h
  split at h
  · next mdl mesh hm hs =>
    simp only [Option.some.injEq, Prod.mk.injEq] at h
    exact ⟨mdl, mesh, hm, hs, h.1.symm, h.2.symm⟩
  · simp at h

/-- What the click handler sets up, from the two references. -/
theorem clickClosure_of_some (getWorldPosition : Object3D → Vec3 K) (s : State K)
    (mdl : Node) (mesh : Object3D) (hm : s.model = some mdl) (hs : s.screenMesh = some mesh) :
    clickClosure getWorldPosition s =
      some (⟨(getWorldPosition mesh).add ⟨0, 0, 2.5⟩, getWorldPosition mesh, s.cameraPosition, 0⟩,
        { s with soundReplays := s.soundReplays + 1 }) := by
  simp [clickClosure, hm, hs]

/-- A frame in which only the render loop is registered. -/
theorem frame_of_pending_animate (sin : K → K) (s : State K)
    (hp : s.pending = [Callback.animate]) :
    frame sin s = animate sin { s with pending := [] } := by
  simp [frame, hp, runCallback]

/-- Running render-loop callbacks registers as many again and never navigates. -/
theorem foldl_animate (sin : K → K) (cbs : List (Callback K))
    (hall : ∀ cb ∈ cbs, cb = Callback.animate) (st : State K) :
    (cbs.foldl (fun st cb => runCallback sin cb st) st).pending = st.pending ++ cbs ∧
      (cbs.foldl (fun st cb => runCallback sin cb st) st).href = st.href := by
  induction cbs generalizing st with
  | nil => simp
  | cons c cs ih =>
    have hc : c = Callback.animate := hall c (List.mem_cons_self _ _)
    subst hc
    have h := ih (fun cb hcb => hall cb (List.mem_cons_of_mem _ hcb)) (animate sin st)
    rw [animate_pending, animate_href] at h
    simpa [runCallback] using h

/-- A frame in which only render-loop callbacks are registered. -/
theorem frame_of_animates (sin : K → K) (t : State K)
    (hall : ∀ cb ∈ t.pending, cb = Callback.animate) :
    (frame sin t).pending = t.pending ∧ (frame sin t).href = t.href := by
  have h := foldl_animate sin t.pending hall { t with pending := [] }
  simpa [frame] using h

/-- A frame in which a `zoomIn` closure with counter below `zoomDuration` runs
after render-loop callbacks. -/
theorem frame_of_zoom_lt (sin : K → K) (t : State K) (cbs : List (Callback K)) (z : Zoom K)
    (hall : ∀ cb ∈ cbs, cb = Callback.animate) (hp : t.pending = cbs ++ [Callback.zoomIn z])
    (hlt : z.zoomProgress < zoomDuration) :
    (frame sin t).pending =
        cbs ++ [Callback.zoomIn { z with zoomProgress := z.zoomProgress + 1 }] ∧
      (frame sin t).href = t.href ∧
      (frame sin t).cameraPosition =
        Vec3.lerpVectors z.initialPosition z.targetPosition
          (((z.zoomProgress + 1 : Nat) : K) / (zoomDuration : K)) := by
  obtain ⟨h1, h2⟩ := foldl_animate sin cbs hall { t with pending := [] }
  simp only [List.nil_append] at h1 h2
  have hfr : frame sin t =
      (zoomIn z (cbs.foldl (fun st cb => runCallback sin cb st) { t with pending := [] })).2 := by
    simp only [frame, hp, List.foldl_append, List.foldl_cons, List.foldl_nil]
    rfl
  rw [hfr, zoomIn_of_lt _ _ hlt]
  exact ⟨by simp only [h1], h2, rfl⟩

/-- A frame in which a `zoomIn` closure with counter not below `zoomDuration`
runs after render-loop callbacks. -/
theorem frame_of_zoom_not_lt (sin : K → K) (t : State K) (cbs : List (Callback K)) (z : Zoom K)
    (hall : ∀ cb ∈ cbs, cb = Callback.animate) (hp : t.pending = cbs ++ [Callback.zoomIn z])
    (hge : ¬ z.zoomProgress < zoomDuration) :
    (frame sin t).pending = cbs ∧ (frame sin t).href = t.href ++ ["site.html"] ∧
      (cbs = [] → (frame sin t).cameraPosition = t.cameraPosition) := by
  obtain ⟨h1, h2⟩ := foldl_animate sin cbs hall { t with pending := [] }
  simp only [List.nil_append] at h1 h2
  have hfr : frame sin t =
      (zoomIn z (cbs.foldl (fun st cb => runCallback sin cb st) { t with pending := [] })).2 := by
    simp only [frame, hp, List.foldl_append, List.foldl_cons, List.foldl_nil]
    rfl
  rw [hfr, zoomIn_of_not_lt _ _ hge]
  refine ⟨h1, by simp only [h2], ?_⟩
  intro hnil
  subst hnil
  rfl

/-- The state right after a click whose guard passes. -/
theorem click_of_closure (getWorldPosition : Object3D → Vec3 K) (s : State K)
    (z : Zoom K) (s0 : State K) (hc : clickClosure getWorldPosition s = some (z, s0)) :
    (click getWorldPosition s).pending =
        s.pending ++ [Callback.zoomIn { z with zoomProgress := 1 }] ∧
      (click getWorldPosition s).href = s.href ∧
      (click getWorldPosition s).cameraPosition =
        Vec3.lerpVectors z.initialPosition z.targetPosition
          (((1 : Nat) : K) / (zoomDuration : K)) := by
  obtain ⟨mdl, mesh, _, _, hz, hs0⟩ := clickClosure_eq_some getWorldPosition s z s0 hc
  have hlt : z.zoomProgress < zoomDuration := by
    rw [hz]
    exact (by decide : 0 < zoomDuration)
  have hz0 : z.zoomProgress = 0 := by rw [hz]
  simp only [click, hc]
  rw [zoomIn_of_lt _ _ hlt, hs0, hz0]
  exact ⟨rfl, rfl, rfl⟩

/-- The frames of a zoom sequence up to the last interpolating call: `j` frames
after the click (`j < 120`) the closure is registered with counter `j + 1`,
nothing has navigated, and the camera is where call `j + 1` put it. -/
theorem frames_during_zoom (sin : K → K) (getWorldPosition : Object3D → Vec3 K) (s : State K)
    (z : Zoom K) (s0 : State K) (hc : clickClosure getWorldPosition s = some (z, s0))
    (hp : ∀ cb ∈ s.pending, cb = Callback.animate) (j : Nat) (hj : j < 120) :
    ((frame sin)^[j] (click getWorldPosition s)).pending =
        s.pending ++ [Callback.zoomIn { z with zoomProgress := j + 1 }] ∧
      ((frame sin)^[j] (click getWorldPosition s)).href = s.href ∧
      ((frame sin)^[j] (click getWorldPosition s)).cameraPosition =
        Vec3.lerpVectors z.initialPosition z.targetPosition
          (((j + 1 : Nat) : K) / (zoomDuration : K)) := by
  induction j with
  | zero => simpa using click_of_closure getWorldPosition s z s0 hc
  | succ j ih =>
    have h := ih (Nat.lt_of_succ_lt hj)
    have hlt : ({ z with zoomProgress := j + 1 } : Zoom K).zoomProgress < zoomDuration := hj
    have hf := frame_of_zoom_lt sin _ s.pending _ hp h.1 hlt
    rw [Function.iterate_succ_apply']
    exact ⟨hf.1, hf.2.1.trans h.2.1, hf.2.2⟩

/-- The frames after a zoom sequence: from frame 120 on the closure is no
longer registered and "site.html" has been assigned once. -/
theorem frames_after_zoom (sin : K → K) (getWorldPosition : Object3D → Vec3 K) (s : State K)
    (z : Zoom K) (s0 : State K) (hc : clickClosure getWorldPosition s = some (z, s0))
    (hp : ∀ cb ∈ s.pending, cb = Callback.animate) (j : Nat) (hj : 120 ≤ j) :
    ((frame sin)^[j] (click getWorldPosition s)).pending = s.pending ∧
      ((frame sin)^[j] (click getWorldPosition s)).href = s.href ++ ["site.html"] := by
  induction j with
  | zero => omega
  | succ j ih =>
    rw [Function.iterate_succ_apply']
    by_cases hj120 : j = 119
    · subst hj120
      have h := frames_during_zoom sin getWorldPosition s z s0 hc hp 119 (by decide)
      have hge : ¬ ({ z with zoomProgress := 119 + 1 } : Zoom K).zoomProgress < zoomDuration :=
        (by decide : ¬ 119 + 1 < zoomDuration)
      have hf := frame_of_zoom_not_lt sin _ s.pending _ hp h.1 hge
      exact ⟨hf.1, by rw [hf.2.1, h.2.1]⟩
    · have h := ih (by omega)
      have hall : ∀ cb ∈ ((frame sin)^[j] (click getWorldPosition s)).pending,
          cb = Callback.animate := by
        rw [h.1]
        exact hp
      have hf := frame_of_animates sin _ hall
      exact ⟨hf.1.trans h.1, hf.2.trans h.2⟩

/-- Interpolating at fraction 120 / 120 gives the target. -/
theorem lerpVectors_full [CharZero K] (a b : Vec3 K) :
    Vec3.lerpVectors a b (((119 + 1 : Nat) : K) / (zoomDuration : K)) = b := by
  have hne : ((120 : Nat) : K) ≠ 0 := by exact_mod_cast (by decide : (120 : Nat) ≠ 0)
  have h1 : ((119 + 1 : Nat) : K) / (zoomDuration : K) = 1 := div_self hne
  rw [h1]
  simp [Vec3.lerpVectors]

/-- A render-loop frame while the model is unset only draws. -/
theorem frame_of_model_none (sin : K → K) (s : State K) (hm : s.model = none)
    (hp : s.pending = [Callback.animate]) :
    frame sin s = { s with renders := s.renders + 1 } := by
  rw [frame_of_pending_animate _ _ hp, animate_of_model_none _ _ (by exact hm)]
  cases s
  simp only at hp
  subst hp
  rfl

/-- A render-loop frame once the model is set. -/
theorem frame_of_model_some (sin : K → K) (s : State K) (m : Node) (hm : s.model = some m)
    (hp : s.pending = [Callback.animate]) :
    frame sin s =
      { s with
        time := s.time + 0.01
        cameraPosition :=
          ⟨s.cameraTarget.x + sin (s.time + 0.01) * 0.5,
            s.cameraTarget.y + 0.5 + sin ((s.time + 0.01) * 0.5) * 0.2,
            s.cameraTarget.z + 3⟩
        cameraLookAt := some s.cameraTarget
        renders := s.renders + 1 } := by
  rw [frame_of_pending_animate _ _ hp, animate_of_model_some _ _ m (by exact hm)]
  cases s
  simp only at hp
  subst hp
  rfl

/-- The render loop while the model is unset: `k` frames only draw `k` times. -/
theorem frame_idle (sin : K → K) (s : State K) (hm : s.model = none)
    (hp : s.pending = [Callback.animate]) (k : Nat) :
    (frame sin)^[k] s = { s with renders := s.renders + k } := by
  induction k with
  | zero => rfl
  | succ k ih =>
    rw [Function.iterate_succ_apply', ih,
      frame_of_model_none sin { s with renders := s.renders + k } hm hp]
    simp [Nat.add_assoc]

/-- The render loop once the model is set: after `k` frames the accumulator
has advanced by `k * 0.01`, and from the first frame on the camera sits on the
orbit around `cameraTarget`. -/
theorem frame_orbit (sin : K → K) (s : State K) (m : Node) (hm : s.model = some m)
    (hp : s.pending = [Callback.animate]) (k : Nat) :
    ((frame sin)^[k] s).model = some m ∧
      ((frame sin)^[k] s).pending = [Callback.animate] ∧
      ((frame sin)^[k] s).cameraTarget = s.cameraTarget ∧
      ((frame sin)^[k] s).time = s.time + k * 0.01 ∧
      (1 ≤ k → ((frame sin)^[k] s).cameraPosition =
        ⟨s.cameraTarget.x + sin (s.time + k * 0.01) * 0.5,
          s.cameraTarget.y + 0.5 + sin ((s.time + k * 0.01) * 0.5) * 0.2,
          s.cameraTarget.z + 3⟩) := by
  induction k with
  | zero => simp [hm, hp]
  | succ k ih =>
    obtain ⟨ihm, ihp, ihc, iht, _⟩ := ih
    have htime : s.time + k * 0.01 + 0.01 = s.time + ((k + 1 : Nat) : K) * 0.01 := by
      push_cast
      ring
    rw [Function.iterate_succ_apply', frame_of_model_some sin _ m ihm ihp]
    refine ⟨ihm, ihp, ihc, ?_, fun _ => ?_⟩ <;> simp only [ihc, iht, htime]

/-- No callback changes the model reference or the camera target point. -/
theorem runCallback_model_cameraTarget (sin : K → K) (cb : Callback K) (st : State K) :
    (runCallback sin cb st).model = st.model ∧
      (runCallback sin cb st).cameraTarget = st.cameraTarget := by
  cases cb with
  | animate =>
    show (animate sin st).model = st.model ∧ (animate sin st).cameraTarget = st.cameraTarget
    cases h : st.model with
    | none =>
      rw [animate_of_model_none sin st h]
      exact ⟨h, rfl⟩
    | some m =>
      rw [animate_of_model_some sin st m h]
      exact ⟨h, rfl⟩
  | zoomIn z =>
    show (zoomIn z st).2.model = st.model ∧ (zoomIn z st).2.cameraTarget = st.cameraTarget
    by_cases h : z.zoomProgress < zoomDuration
    · rw [zoomIn_of_lt z st h]
      exact ⟨rfl, rfl⟩
    · rw [zoomIn_of_not_lt z st h]
      exact ⟨rfl, rfl⟩

/-- Running any callbacks keeps the model reference and the camera target point. -/
theorem foldl_model_cameraTarget (sin : K → K) (cbs : List (Callback K)) (st : State K) :
    (cbs.foldl (fun st cb => runCallback sin cb st) st).model = st.model ∧
      (cbs.foldl (fun st cb => runCallback sin cb st) st).cameraTarget = st.cameraTarget := by
  induction cbs generalizing st with
  | nil => exact ⟨rfl, rfl⟩
  | cons c cs ih =>
    have h := ih (runCallback sin c st)
    have hc := runCallback_model_cameraTarget sin c st
    rw [List.foldl_cons]
    exact ⟨h.1.trans hc.1, h.2.trans hc.2⟩

/-- Frames keep the model reference and the camera target point. -/
theorem iterate_frame_model_cameraTarget (sin : K → K) (st : State K) (j : Nat) :
    ((frame sin)^[j] st).model = st.model ∧
      ((frame sin)^[j] st).cameraTarget = st.cameraTarget := by
  induction j with
  | zero => exact ⟨rfl, rfl⟩
  | succ j ih =>
    rw [Function.iterate_succ_apply']
    have h := foldl_model_cameraTarget sin ((frame sin)^[j] st).pending
      { ((frame sin)^[j] st) with pending := [] }
    exact ⟨h.1.trans ih.1, h.2.trans ih.2⟩

/-- A click keeps the model reference and the camera target point. -/
theorem click_model_cameraTarget (getWorldPosition : Object3D → Vec3 K) (s : State K) :
    (click getWorldPosition s).model = s.model ∧
      (click getWorldPosition s).cameraTarget = s.cameraTarget := by
  unfold click
  cases hc : clickClosure getWorldPosition s with
  | none => exact ⟨rfl, rfl⟩
  | some p =>
    obtain ⟨z, s0⟩ := p
    obtain ⟨_, _, _, _, _, hs0⟩ := clickClosure_eq_some getWorldPosition s z s0 hc
    have h := runCallback_model_cameraTarget (fun x => x) (Callback.zoomIn z) s0
    rw [hs0] at h
    rw [hs0]
    exact h

/-- The frame in which a zoom sequence ends, with the render loop running: the
render-loop call of frame 120 runs before the navigating `zoomIn` call, so the
camera is on the orbit around the camera target point when "site.html" is
assigned. -/
theorem frame_zoom_end_camera (sin : K → K) (getWorldPosition : Object3D → Vec3 K)
    (s : State K) (mdl : Node) (mesh : Object3D) (hm : s.model = some mdl)
    (hs : s.screenMesh = some mesh) (hp : s.pending = [Callback.animate]) :
    ((frame sin)^[120] (click getWorldPosition s)).cameraPosition =
      ⟨s.cameraTarget.x + sin ((frame sin)^[120] (click getWorldPosition s)).time * 0.5,
        s.cameraTarget.y + 0.5 +
          sin (((frame sin)^[120] (click getWorldPosition s)).time * 0.5) * 0.2,
        s.cameraTarget.z + 3⟩ := by
  have hc := clickClosure_of_some getWorldPosition s mdl mesh hm hs
  have hall : ∀ cb ∈ s.pending, cb = Callback.animate := by
    intro cb hcb
    rw [hp] at hcb
    exact List.mem_singleton.mp hcb
  have h119 := (frames_during_zoom sin getWorldPosition s _ _ hc hall 119 (by decide)).1
  rw [hp] at h119
  have hinv := iterate_frame_model_cameraTarget sin (click getWorldPosition s) 119
  have hclick := click_model_cameraTarget getWorldPosition s
  have hmodel : ((frame sin)^[119] (click getWorldPosition s)).model = some mdl :=
    hinv.1.trans (hclick.1.trans hm)
  have htarget : ((frame sin)^[119] (click getWorldPosition s)).cameraTarget = s.cameraTarget :=
    hinv.2.trans hclick.2
  have hiter : (frame sin)^[120] (click getWorldPosition s) =
      frame sin ((frame sin)^[119] (click getWorldPosition s)) :=
    Function.iterate_succ_apply' (frame sin) 119 _
  rw [hiter]
  generalize (frame sin)^[119] (click getWorldPosition s) = t at h119 hmodel htarget
  have hfr : frame sin t =
      (zoomIn { (⟨(getWorldPosition mesh).add ⟨0, 0, 2.5⟩, getWorldPosition mesh,
          s.cameraPosition, 0⟩ : Zoom K) with zoomProgress := 119 + 1 }
        (animate sin { t with pending := [] })).2 := by
    simp only [frame, h119, List.cons_append, List.nil_append, List.foldl_cons, List.foldl_nil]
    rfl
  have hge : ¬ ({ (⟨(getWorldPosition mesh).add ⟨0, 0, 2.5⟩, getWorldPosition mesh,
      s.cameraPosition, 0⟩ : Zoom K) with zoomProgress := 119 + 1 }).zoomProgress <
      zoomDuration := (by decide : ¬ 119 + 1 < zoomDuration)
  rw [hfr, zoomIn_of_not_lt _ _ hge,
    animate_of_model_some sin { t with pending := [] } mdl hmodel]
  simp only [htarget]

end Facts

/-! ## Zoom sequence: claims -/

section ZoomClaims

variable {K : Type} [Field K]

/-- C1. Let the closure of a zoom sequence start with counter 0, start position
`z.initialPosition` equal to the camera position at click time, and target
`z.targetPosition`. For every `n ≤ 120`, after `n` calls of `zoomIn` (each of
which takes the interpolating branch, the counter being `n` afterwards) the
camera position is `start + (target - start) * (n / 120)` componentwise; it is
the start position at `n = 0` and the target position at `n = 120`. -/
theorem zoom_camera_is_lerp [CharZero K] (z : Zoom K) (s : State K)
    (hz : z.zoomProgress = 0) (hs : s.cameraPosition = z.initialPosition)
    (n : Nat) (hn : n ≤ 120) :
    ((Function.uncurry zoomIn)^[n] (z, s)).1.zoomProgress = n ∧
      ((Function.uncurry zoomIn)^[n] (z, s)).2.cameraPosition =
        ⟨z.initialPosition.x + (z.targetPosition.x - z.initialPosition.x) * ((n : K) / 120),
          z.initialPosition.y + (z.targetPosition.y - z.initialPosition.y) * ((n : K) / 120),
          z.initialPosition.z + (z.targetPosition.z - z.initialPosition.z) * ((n : K) / 120)⟩ ∧
      (n = 0 → ((Function.uncurry zoomIn)^[n] (z, s)).2.cameraPosition = z.initialPosition) ∧
      (n = 120 → ((Function.uncurry zoomIn)^[n] (z, s)).2.cameraPosition = z.targetPosition) := by
  have hcam : ((Function.uncurry zoomIn)^[n] (z, s)).2.cameraPosition =
      ⟨z.initialPosition.x + (z.targetPosition.x - z.initialPosition.x) * ((n : K) / 120),
        z.initialPosition.y + (z.targetPosition.y - z.initialPosition.y) * ((n : K) / 120),
        z.initialPosition.z + (z.targetPosition.z - z.initialPosition.z) * ((n : K) / 120)⟩ := by
    cases n with
    | zero => simp [hs]
    | succ m =>
      have hm : m < zoomDuration := hn
      have henv := iterate_zoomIn_env z s hz m
      rw [Nat.min_eq_left (Nat.le_of_lt hm)] at henv
      rw [Function.iterate_succ_apply', Function.uncurry, henv, zoomIn_of_lt _ _ hm]
      simp [Vec3.lerpVectors, zoomDuration]
  refine ⟨?_, hcam, ?_, ?_⟩
  · rw [iterate_zoomIn_env z s hz n]
    exact Nat.min_eq_left hn
  · intro h0
    subst h0
    simp [hs]
  · intro h120
    rw [hcam, h120]
    have hne : ((120 : Nat) : K) ≠ 0 := by exact_mod_cast (by decide : (120 : Nat) ≠ 0)
    simp [div_self hne]

/-- C1 at a concrete input: the closure created by a click in the loaded demo
state, after 120 calls. -/
theorem zoom_camera_is_lerp_witness :
    demoZoom.zoomProgress = 0 ∧ demoClicked.cameraPosition = demoZoom.initialPosition ∧
      ((Function.uncurry zoomIn)^[120] (demoZoom, demoClicked)).1.zoomProgress = 120 ∧
      ((Function.uncurry zoomIn)^[120] (demoZoom, demoClicked)).2.cameraPosition =
        demoZoom.targetPosition :=
  have h := zoom_camera_is_lerp demoZoom demoClicked rfl rfl 120 (by decide)
  ⟨rfl, rfl, h.1, h.2.2.2 rfl⟩

/-- C3. When the model or the screen mesh is unset, the click handler returns
at its guard: no closure is created and the state after the click is the state
before it (camera, scheduled callbacks, draw count, sound replays and
navigation included). -/
theorem click_without_target_is_noop (getWorldPosition : Object3D → Vec3 K) (s : State K)
    (h : s.model = none ∨ s.screenMesh = none) :
    clickClosure getWorldPosition s = none ∧ click getWorldPosition s = s := by
  have hnone : clickClosure getWorldPosition s = none := by
    unfold clickClosure
    rcases h with h | h
    · simp [h]
    · cases hm : s.model <;> simp [h]
  exact ⟨hnone, by simp [click, hnone]⟩

/-- C3 at a concrete input: a click in the state right after start-up. -/
theorem click_without_target_is_noop_witness :
    clickClosure (fun _ => (⟨0, 1, -2⟩ : Vec3 ℚ)) (startState id) = none ∧
      click (fun _ => (⟨0, 1, -2⟩ : Vec3 ℚ)) (startState id) = startState id :=
  click_without_target_is_noop (fun _ => (⟨0, 1, -2⟩ : Vec3 ℚ)) (startState id) (Or.inl rfl)

/-- C8. The closure created by a click starts with counter 0. After any number
`n` of `zoomIn` calls the counter is `min n 120`, hence within
`[0, zoomDuration]`; one more call increases it by exactly 1 when it is below
120 and leaves it at 120 otherwise, so it never decreases. -/
theorem zoomProgress_in_range (getWorldPosition : Object3D → Vec3 K) (s : State K)
    (z : Zoom K) (s0 : State K) (h : clickClosure getWorldPosition s = some (z, s0)) (n : Nat) :
    z.zoomProgress = 0 ∧
      ((Function.uncurry zoomIn)^[n] (z, s0)).1.zoomProgress = min n 120 ∧
      ((Function.uncurry zoomIn)^[n] (z, s0)).1.zoomProgress ≤ zoomDuration ∧
      ((Function.uncurry zoomIn)^[n] (z, s0)).1.zoomProgress ≤
        ((Function.uncurry zoomIn)^[n + 1] (z, s0)).1.zoomProgress ∧
      (((Function.uncurry zoomIn)^[n] (z, s0)).1.zoomProgress < 120 →
        ((Function.uncurry zoomIn)^[n + 1] (z, s0)).1.zoomProgress =
          ((Function.uncurry zoomIn)^[n] (z, s0)).1.zoomProgress + 1) ∧
      (((Function.uncurry zoomIn)^[n] (z, s0)).1.zoomProgress = 120 →
        ((Function.uncurry zoomIn)^[n + 1] (z, s0)).1.zoomProgress = 120) := by
  obtain ⟨mdl, mesh, _, _, hzv, _⟩ := clickClosure_eq_some getWorldPosition s z s0 h
  have hz : z.zoomProgress = 0 := by rw [hzv]
  rw [iterate_zoomIn_env z s0 hz n, iterate_zoomIn_env z s0 hz (n + 1)]
  refine ⟨hz, rfl, ?_, ?_, ?_, ?_⟩ <;> simp only [zoomDuration] <;> omega

/-- C8 at a concrete input: a click in the loaded demo state, then 200 calls. -/
theorem zoomProgress_in_range_witness :
    clickClosure demoWorldPosition demoState = some (demoZoom, demoClicked) ∧
      demoZoom.zoomProgress = 0 ∧
      ((Function.uncurry zoomIn)^[200] (demoZoom, demoClicked)).1.zoomProgress = min 200 120 ∧
      ((Function.uncurry zoomIn)^[200] (demoZoom, demoClicked)).1.zoomProgress ≤ zoomDuration :=
  have h := zoomProgress_in_range demoWorldPosition demoState demoZoom demoClicked rfl 200
  ⟨rfl, h.1, h.2.1, h.2.2.1⟩

/-- C2, as stated, fails: in the loaded demo scene (screen at (0, 1, -2),
camera target at the origin, render loop running, real arithmetic), in the
frame where the zoom sequence ends by assigning "site.html" the camera's z is
0 + 3, so the final camera position is not (0, 1, 0.5). -/
theorem click_zoom_ends_on_orbit :
    ((frame Real.sin)^[120]
        (click (fun _ => (⟨0, 1, -2⟩ : Vec3 ℝ))
          (onLoad (fun _ => (⟨0, 0, 0⟩ : Vec3 ℝ)) demoScene (startState Real.sin)))).href =
        ["site.html"] ∧
      ((frame Real.sin)^[120]
          (click (fun _ => (⟨0, 1, -2⟩ : Vec3 ℝ))
            (onLoad (fun _ => (⟨0, 0, 0⟩ : Vec3 ℝ)) demoScene
              (startState Real.sin)))).cameraPosition.z = 0 + 3 ∧
      ((frame Real.sin)^[120]
          (click (fun _ => (⟨0, 1, -2⟩ : Vec3 ℝ))
            (onLoad (fun _ => (⟨0, 0, 0⟩ : Vec3 ℝ)) demoScene
              (startState Real.sin)))).cameraPosition ≠ ⟨0, 1, 0.5⟩ := by
  have hc := clickClosure_of_some (fun _ => (⟨0, 1, -2⟩ : Vec3 ℝ))
    (onLoad (fun _ => (⟨0, 0, 0⟩ : Vec3 ℝ)) demoScene (startState Real.sin))
    (Node.traverse traverseCallback demoScene none).1 ⟨3, "screen", true, true, false⟩ rfl rfl
  have hhref := (frames_after_zoom Real.sin (fun _ => (⟨0, 1, -2⟩ : Vec3 ℝ)) _ _ _ hc
    (by intro cb hcb; exact List.mem_singleton.mp hcb) 120 (Nat.le_refl 120)).2
  have hcam := frame_zoom_end_camera Real.sin (fun _ => (⟨0, 1, -2⟩ : Vec3 ℝ))
    (onLoad (fun _ => (⟨0, 0, 0⟩ : Vec3 ℝ)) demoScene (startState Real.sin))
    (Node.traverse traverseCallback demoScene none).1 ⟨3, "screen", true, true, false⟩
    rfl rfl rfl
  refine ⟨hhref, congrArg Vec3.z hcam, ?_⟩
  intro heq
  have hz : (0 : ℝ) + 3 = 0.5 := (congrArg Vec3.z hcam).symm.trans (congrArg Vec3.z heq)
  norm_num at hz

/-- C2, amended. A click with the model and the screen mesh set, while the
render loop is registered, runs a zoom sequence: in exact arithmetic, at its
120th `zoomIn` call (119 frames after the click) the camera position is the
screen's world position plus (0, 0, 2.5), which is (0, 1, 0.5) for the screen
at (0, 1, -2); up to there nothing has been assigned to the address, and from
frame 120 on exactly one "site.html" has been added and only the render loop
is registered. In frame 120 the render loop runs before the navigating call,
so when the sequence ends the camera is on the orbit around the camera target
point, at z = target z + 3. -/
theorem click_zooms_to_screen [CharZero K] (sin : K → K) (getWorldPosition : Object3D → Vec3 K)
    (s : State K) (mdl : Node) (mesh : Object3D) (hm : s.model = some mdl)
    (hs : s.screenMesh = some mesh) (hp : s.pending = [Callback.animate]) :
    ((frame sin)^[119] (click getWorldPosition s)).cameraPosition =
        (getWorldPosition mesh).add ⟨0, 0, 2.5⟩ ∧
      (getWorldPosition mesh = ⟨0, 1, -2⟩ →
        ((frame sin)^[119] (click getWorldPosition s)).cameraPosition = ⟨0, 1, 0.5⟩) ∧
      (∀ j, j < 120 → ((frame sin)^[j] (click getWorldPosition s)).href = s.href) ∧
      (∀ j, 120 ≤ j →
        ((frame sin)^[j] (click getWorldPosition s)).href = s.href ++ ["site.html"] ∧
        ((frame sin)^[j] (click getWorldPosition s)).pending = [Callback.animate]) ∧
      ((frame sin)^[120] (click getWorldPosition s)).cameraPosition =
        ⟨s.cameraTarget.x + sin ((frame sin)^[120] (click getWorldPosition s)).time * 0.5,
          s.cameraTarget.y + 0.5 +
            sin (((frame sin)^[120] (click getWorldPosition s)).time * 0.5) * 0.2,
          s.cameraTarget.z + 3⟩ := by
  have hc := clickClosure_of_some getWorldPosition s mdl mesh hm hs
  have hall : ∀ cb ∈ s.pending, cb = Callback.animate := by
    intro cb hcb
    rw [hp] at hcb
    exact List.mem_singleton.mp hcb
  have h119 := frames_during_zoom sin getWorldPosition s _ _ hc hall 119 (by decide)
  have hcam : ((frame sin)^[119] (click getWorldPosition s)).cameraPosition =
      (getWorldPosition mesh).add ⟨0, 0, 2.5⟩ := by
    rw [h119.2.2, lerpVectors_full]
  refine ⟨hcam, ?_, ?_, ?_, frame_zoom_end_camera sin getWorldPosition s mdl mesh hm hs hp⟩
  · intro hpos
    rw [hcam, hpos]
    simp only [Vec3.add, Vec3.mk.injEq]
    refine ⟨by norm_num, by norm_num, by norm_num⟩
  · intro j hj
    exact (frames_during_zoom sin getWorldPosition s _ _ hc hall j hj).2.1
  · intro j hj
    have h := frames_after_zoom sin getWorldPosition s _ _ hc hall j hj
    exact ⟨h.2, h.1.trans hp⟩

/-- C2, amended, at a concrete input: the loaded demo scene, whose screen sits
at (0, 1, -2), with the render loop running. -/
theorem click_zooms_to_screen_witness :
    ((frame id)^[119] (click demoWorldPosition demoState)).cameraPosition = ⟨0, 1, 0.5⟩ ∧
      ((frame id)^[120] (click demoWorldPosition demoState)).href = ["site.html"] ∧
      ((frame id)^[120] (click demoWorldPosition demoState)).pending = [Callback.animate] ∧
      ((frame id)^[120] (click demoWorldPosition demoState)).cameraPosition.z = 0 + 3 :=
  have h := click_zooms_to_screen id demoWorldPosition demoState
    (Node.traverse traverseCallback demoScene none).1 ⟨3, "screen", true, true, false⟩ rfl rfl rfl
  ⟨h.2.1 rfl, (h.2.2.2.1 120 (Nat.le_refl 120)).1, (h.2.2.2.1 120 (Nat.le_refl 120)).2,
    congrArg Vec3.z h.2.2.2.2⟩

/-- C7, as stated, fails: the `zoomIn` call that takes the counter from 119 to
120 still registers a further `zoomIn` frame and assigns no address. -/
theorem zoomIn_reaching_duration_still_reschedules :
    (zoomIn { demoZoom with zoomProgress := 119 } demoClicked).1.zoomProgress = 120 ∧
      (zoomIn { demoZoom with zoomProgress := 119 } demoClicked).2.pending =
        [Callback.animate, Callback.zoomIn { demoZoom with zoomProgress := 120 }] ∧
      (zoomIn { demoZoom with zoomProgress := 119 } demoClicked).2.href = [] := by
  rw [zoomIn_of_lt _ _ (by decide : 119 < zoomDuration)]
  exact ⟨rfl, rfl, rfl⟩

/-- C7, amended. Every `zoomIn` call made with the counter below 120
increments the counter, moves the camera, draws and registers the next
`zoomIn` frame, the call that brings the counter to 120 included; the call
made with the counter at 120 only assigns "site.html" and registers nothing.
So after a click (only the render loop being registered) the sequence is
exactly 120 interpolating calls, the first in the click handler and one in
each of the frames 1 to 119, then one navigating call in frame 120, and then
no `zoomIn` is registered any more. -/
theorem zoom_sequence_calls (sin : K → K) (getWorldPosition : Object3D → Vec3 K) (s : State K)
    (z : Zoom K) (s0 : State K) (hc : clickClosure getWorldPosition s = some (z, s0))
    (hp : ∀ cb ∈ s.pending, cb = Callback.animate) :
    (∀ (e : Zoom K) (t : State K), e.zoomProgress < 120 →
        zoomIn e t =
          ({ e with zoomProgress := e.zoomProgress + 1 },
            { t with
              cameraPosition := Vec3.lerpVectors e.initialPosition e.targetPosition
                (((e.zoomProgress + 1 : Nat) : K) / 120)
              cameraLookAt := some e.targetLookAt
              renders := t.renders + 1
              pending := t.pending ++
                [Callback.zoomIn { e with zoomProgress := e.zoomProgress + 1 }] })) ∧
      (∀ (e : Zoom K) (t : State K), e.zoomProgress = 120 →
        zoomIn e t = (e, { t with href := t.href ++ ["site.html"] })) ∧
      (∀ j, j < 120 →
        ((frame sin)^[j] (click getWorldPosition s)).pending =
          s.pending ++ [Callback.zoomIn { z with zoomProgress := j + 1 }] ∧
        ((frame sin)^[j] (click getWorldPosition s)).href = s.href) ∧
      (∀ j, 120 ≤ j →
        ((frame sin)^[j] (click getWorldPosition s)).pending = s.pending ∧
        ((frame sin)^[j] (click getWorldPosition s)).href = s.href ++ ["site.html"]) := by
  refine ⟨?_, ?_, ?_, ?_⟩
  · intro e t he
    rw [zoomIn_of_lt e t he]
    simp [zoomDuration]
  · intro e t he
    exact zoomIn_of_not_lt e t (by rw [he]; decide)
  · intro j hj
    have h := frames_during_zoom sin getWorldPosition s z s0 hc hp j hj
    exact ⟨h.1, h.2.1⟩
  · intro j hj
    exact frames_after_zoom sin getWorldPosition s z s0 hc hp j hj

/-- C7, amended, at a concrete input: a click in the loaded demo state. -/
theorem zoom_sequence_calls_witness :
    clickClosure demoWorldPosition demoState = some (demoZoom, demoClicked) ∧
      ((frame id)^[119] (click demoWorldPosition demoState)).pending =
        [Callback.animate, Callback.zoomIn { demoZoom with zoomProgress := 120 }] ∧
      ((frame id)^[119] (click demoWorldPosition demoState)).href = [] ∧
      ((frame id)^[120] (click demoWorldPosition demoState)).pending = [Callback.animate] ∧
      ((frame id)^[120] (click demoWorldPosition demoState)).href = ["site.html"] :=
  have h := zoom_sequence_calls id demoWorldPosition demoState demoZoom demoClicked rfl
    (by intro cb hcb; exact List.mem_singleton.mp hcb)
  ⟨rfl, (h.2.2.1 119 (by decide)).1, (h.2.2.1 119 (by decide)).2,
    (h.2.2.2 120 (by decide)).1, (h.2.2.2 120 (by decide)).2⟩

/-- C10. For two closure environments that agree on the start position, the
target position and the counter (below 120), and any two states, whatever
their camera positions, one `zoomIn` call yields the same camera position,
the interpolation of start and target at (counter + 1) / 120, and the same
counter; in particular a render-loop call before it changes nothing. -/
theorem zoomIn_camera_independent_of_state (z1 z2 : Zoom K) (s1 s2 : State K)
    (hi : z1.initialPosition = z2.initialPosition) (ht : z1.targetPosition = z2.targetPosition)
    (hn : z1.zoomProgress = z2.zoomProgress) (hlt : z1.zoomProgress < zoomDuration) :
    (zoomIn z1 s1).2.cameraPosition = (zoomIn z2 s2).2.cameraPosition ∧
      (zoomIn z1 s1).1.zoomProgress = (zoomIn z2 s2).1.zoomProgress ∧
      (zoomIn z1 s1).2.cameraPosition =
        Vec3.lerpVectors z1.initialPosition z1.targetPosition
          (((z1.zoomProgress + 1 : Nat) : K) / 120) ∧
      ∀ sin : K → K,
        (zoomIn z1 (animate sin s1)).2.cameraPosition = (zoomIn z1 s1).2.cameraPosition := by
  have hlt2 : z2.zoomProgress < zoomDuration := hn ▸ hlt
  refine ⟨?_, ?_, ?_, ?_⟩
  · rw [zoomIn_of_lt z1 s1 hlt, zoomIn_of_lt z2 s2 hlt2]
    simp only [hi, ht, hn]
  · rw [zoomIn_of_lt z1 s1 hlt, zoomIn_of_lt z2 s2 hlt2]
    simp only [hn]
  · rw [zoomIn_of_lt z1 s1 hlt]
    simp [zoomDuration]
  · intro sin
    rw [zoomIn_of_lt z1 s1 hlt, zoomIn_of_lt z1 _ hlt]

/-- C10 at a concrete input: the demo closure at counter 5, before and after a
render-loop call. -/
theorem zoomIn_camera_independent_of_state_witness :
    demoClicked.cameraPosition.z = 5 ∧ (animate id demoClicked).cameraPosition.z = 0 + 3 ∧
      (zoomIn { demoZoom with zoomProgress := 5 } demoClicked).2.cameraPosition =
        (zoomIn { demoZoom with zoomProgress := 5 } (animate id demoClicked)).2.cameraPosition :=
  ⟨rfl, rfl,
    (zoomIn_camera_independent_of_state { demoZoom with zoomProgress := 5 }
      { demoZoom with zoomProgress := 5 } demoClicked (animate id demoClicked) rfl rfl rfl
      (by decide)).1⟩

end ZoomClaims

/-! ## Render loop: claims -/

section RenderClaims

variable {K : Type} [Field K]

/-- C4. While the model is unset a call of `animate` only draws and registers
itself again, and `k` frames of the render loop change nothing but the draw
count. In particular, `k` frames after start-up the state is the initial state
with `k + 1` draws and the render loop registered: the camera position is
still (0, 1, 5), the time accumulator still 0 and the model still unset. -/
theorem render_loop_idle_keeps_camera (sin : K → K) (k : Nat) :
    (∀ s : State K, s.model = none →
        animate sin s =
          { s with renders := s.renders + 1, pending := s.pending ++ [Callback.animate] }) ∧
      (∀ s : State K, s.model = none → s.pending = [Callback.animate] →
        (frame sin)^[k] s = { s with renders := s.renders + k }) ∧
      (frame sin)^[k] (startState sin) =
        { (initialState : State K) with renders := k + 1, pending := [Callback.animate] } ∧
      ((frame sin)^[k] (startState sin)).cameraPosition = ⟨0, 1, 5⟩ ∧
      ((frame sin)^[k] (startState sin)).time = 0 ∧
      ((frame sin)^[k] (startState sin)).model = none := by
  have hstart : startState sin =
      { (initialState : State K) with renders := 1, pending := [Callback.animate] } := by
    rw [startState, animate_of_model_none sin initialState rfl]
    rfl
  have hrun : (frame sin)^[k] (startState sin) =
      { (initialState : State K) with renders := k + 1, pending := [Callback.animate] } := by
    rw [hstart, frame_idle sin _ rfl rfl k]
    simp [Nat.add_comm]
  refine ⟨fun s hm => animate_of_model_none sin s hm, fun s hm hp => frame_idle sin s hm hp k,
    hrun, ?_, ?_, ?_⟩ <;> rw [hrun] <;> rfl

end RenderClaims

/-- C9. With the model set, the render loop registered and the accumulator at
0, after `k ≥ 1` frames the accumulator is `0.01 * k` and the camera position
is `(c.x + sin t * 0.5, c.y + 0.5 + sin (t * 0.5) * 0.2, c.z + 3)` for
`t = 0.01 * k` and `c` the camera target point, over the reals. Hence the
camera's z is `c.z + 3`, its x is within 0.5 of `c.x`, and its y lies in
`[c.y + 0.3, c.y + 0.7]`. -/
theorem orbit_camera_path (s : State ℝ) (m : Node) (hm : s.model = some m) (ht : s.time = 0)
    (hp : s.pending = [Callback.animate]) (k : Nat) (hk : 1 ≤ k) :
    ((frame Real.sin)^[k] s).time = 0.01 * k ∧
      ((frame Real.sin)^[k] s).cameraPosition =
        ⟨s.cameraTarget.x + Real.sin (0.01 * k) * 0.5,
          s.cameraTarget.y + 0.5 + Real.sin (0.01 * k * 0.5) * 0.2,
          s.cameraTarget.z + 3⟩ ∧
      ((frame Real.sin)^[k] s).cameraPosition.z = s.cameraTarget.z + 3 ∧
      |((frame Real.sin)^[k] s).cameraPosition.x - s.cameraTarget.x| ≤ 0.5 ∧
      s.cameraTarget.y + 0.3 ≤ ((frame Real.sin)^[k] s).cameraPosition.y ∧
      ((frame Real.sin)^[k] s).cameraPosition.y ≤ s.cameraTarget.y + 0.7 := by
  obtain ⟨_, _, _, htime, hcam⟩ := frame_orbit Real.sin s m hm hp k
  have hcam := hcam hk
  have ht2 : s.time + (k : ℝ) * 0.01 = 0.01 * k := by
    rw [ht]
    ring
  rw [ht2] at htime hcam
  have h1 := Real.sin_le_one (0.01 * k)
  have h2 := Real.neg_one_le_sin (0.01 * k)
  have h3 := Real.sin_le_one (0.01 * k * 0.5)
  have h4 := Real.neg_one_le_sin (0.01 * k * 0.5)
  refine ⟨htime, hcam, ?_, ?_, ?_, ?_⟩
  · rw [hcam]
  · rw [hcam, abs_le]
    constructor <;> norm_num <;> linarith
  · rw [hcam]
    norm_num
    linarith
  · rw [hcam]
    norm_num
    linarith

/-- C9 at a concrete input: three frames after the demo scene was loaded at
start-up, with the camera target at the origin. -/
theorem orbit_camera_path_witness :
    ((frame Real.sin)^[3]
        (onLoad (fun _ => (⟨0, 0, 0⟩ : Vec3 ℝ)) demoScene (startState Real.sin))).time =
        0.01 * (3 : Nat) ∧
      ((frame Real.sin)^[3]
          (onLoad (fun _ => (⟨0, 0, 0⟩ : Vec3 ℝ)) demoScene
            (startState Real.sin))).cameraPosition.z = 0 + 3 :=
  have h := orbit_camera_path
    (onLoad (fun _ => (⟨0, 0, 0⟩ : Vec3 ℝ)) demoScene (startState Real.sin))
    (Node.traverse traverseCallback demoScene none).1 rfl rfl rfl 3 (by decide)
  ⟨h.1, h.2.2.1⟩

end PeacePlace
